import Mathlib

/-!
Verification of the note editor's autosave/save coordinator
(`frontend/src/pages/NoteEditor.tsx`): the debounced auto-save, the manual
save, the in-flight guard, the create-to-edit identity promotion, and the
delete action.  The component is embedded as an explicit state machine:
`EditorState` carries the React state (`title`, `content`, `saving`,
`autoSaveStatus`, `error`), the refs (`autoSaveTimerRef` as an `Option`
holding the armed timer's captured draft, `createdNoteIdRef`), the route
parameter `id` (`urlId`), and ghost observation logs (`calls`,
`saveResults`, `navigatedTo`) recording what the Notes Service and the
router observe.  Events model user input re-running the debounce effect,
the debounce timer elapsing, the Save button, the resolution of the one
in-flight request, the delete action, and the initial fetch of an
existing note.
-/

namespace NoteSaas

/-- The `autoSaveStatus` React state: `'saved' | 'saving' | 'unsaved'`. -/
inductive SaveStatus where
  | saved
  | saving
  | unsaved
deriving DecidableEq, Repr

/-- A call observed by the Notes Service (`notesApi`).  `create` and `edit`
carry the payload built in the component (`title.trim() || undefined`,
`content.trim()`); `delete` carries the targeted id. -/
inductive ApiCall where
  | create (title : Option String) (content : String)
  | edit (id : String) (title : Option String) (content : String)
  | delete (id : String)
deriving DecidableEq, Repr

/-- Which handler initiated the in-flight persistence request. -/
inductive SaveKind where
  | auto
  | manual
deriving DecidableEq, Repr

/-- The armed debounce timer: the draft captured by the `setTimeout`
closure and the delay it was armed with. -/
structure TimerInfo where
  title : String
  content : String
  delayMs : Nat
deriving DecidableEq, Repr

/-- The single in-flight persistence request (between initiation and the
promise settling). -/
structure Inflight where
  kind : SaveKind
  call : ApiCall
deriving DecidableEq, Repr

/-- The NoteEditor component state, refs, route parameter and ghost
observation logs. -/
structure EditorState where
  urlId : Option String
  title : String
  content : String
  saving : Bool
  autoSaveStatus : SaveStatus
  error : Option String
  timer : Option TimerInfo
  createdNoteId : Option String
  inflight : Option Inflight
  sessionOpen : Bool
  noteLoaded : Bool
  navigatedTo : Option String
  calls : List ApiCall
  saveResults : List (ApiCall × Bool)
deriving DecidableEq, Repr

/-- The `setTimeout` delay (3000 ms) in the auto-save effect. -/
def autoSaveDelayMs : Nat := 3000

/-- Initial component state for a session opened with route parameter
`urlId` (`none` for `/dashboard/create-note`). -/
def init (urlId : Option String) : EditorState :=
  { urlId := urlId
    title := ""
    content := ""
    saving := false
    autoSaveStatus := .saved
    error := none
    timer := none
    createdNoteId := none
    inflight := none
    sessionOpen := true
    noteLoaded := false
    navigatedTo := none
    calls := []
    saveResults := [] }

/-- JavaScript `String.prototype.trim()`: strip whitespace from both ends
(implemented structurally over the character list so it computes). -/
def jsTrim (s : String) : String :=
  ⟨((s.data.dropWhile Char.isWhitespace).reverse.dropWhile Char.isWhitespace).reverse⟩

/-- The optional title sent in payloads: `title.trim() || undefined`. -/
def optTitle (t : String) : Option String :=
  if jsTrim t = "" then none else some (jsTrim t)

/-- The target of a persistence call: `createdNoteIdRef.current || id`
(JavaScript short-circuit disjunction of the two nullable ids). -/
def targetId (s : EditorState) : Option String :=
  match s.createdNoteId with
  | some i => some i
  | none => s.urlId

/-- The create-or-edit decision of both save handlers: edit when a note id
is known, create otherwise. -/
def mkSaveCall (noteId : Option String) (t c : String) : ApiCall :=
  match noteId with
  | some i => .edit i (optTitle t) (jsTrim c)
  | none => .create (optTitle t) (jsTrim c)

/-- The auto-save debounce `useEffect` body, run right after its cleanup
has cleared the previously armed timer: bail out if the draft is fully
empty, bail out while a save is running, otherwise mark the draft unsaved
and arm a fresh 3000 ms timer capturing the current draft. -/
def debounceEffect (s : EditorState) : EditorState :=
  let s1 : EditorState := { s with timer := none }
  if s1.title = "" ∧ s1.content = "" then s1
  else if s1.saving then s1
  else { s1 with autoSaveStatus := .unsaved
                 timer := some ⟨s1.title, s1.content, autoSaveDelayMs⟩ }

/-- A draft mutation (`setTitle`/`setContent` from user input) followed by
the re-run of the debounce effect. -/
def applyInput (s : EditorState) (t c : String) : EditorState :=
  debounceEffect { s with title := t, content := c }

/-- The `handleAutoSave` callback, run when the armed timer elapses with captured draft
`ti`: return if the captured content trims to empty, return if a save is
already running, otherwise set status to saving, take the lock and
initiate the create-or-edit call. -/
def handleAutoSaveFire (s : EditorState) (ti : TimerInfo) : EditorState :=
  let s1 : EditorState := { s with timer := none }
  if jsTrim ti.content = "" then s1
  else if s1.saving = true ∨ s1.autoSaveStatus = .saving then s1
  else
    let call := mkSaveCall (targetId s1) ti.title ti.content
    { s1 with autoSaveStatus := .saving
              saving := true
              inflight := some ⟨.auto, call⟩
              calls := s1.calls ++ [call] }

/-- The `handleSave` manual Save handler, up to the initiation of the
persistence request: validation error on trimmed-empty content (before
any other action), otherwise cancel the pending debounce timer, take the
lock, set status to saving, clear the error and initiate the
create-or-edit call. -/
def handleSave (s : EditorState) : EditorState :=
  if jsTrim s.content = "" then { s with error := some "Note content is required" }
  else
    let s1 : EditorState := { s with timer := none }
    let call := mkSaveCall (targetId s1) s1.title s1.content
    { s1 with saving := true
              autoSaveStatus := .saving
              error := none
              inflight := some ⟨.manual, call⟩
              calls := s1.calls ++ [call] }

/-- Whether the Save button is disabled: saving || !content.trim(). -/
def saveButtonDisabled (s : EditorState) : Bool :=
  s.saving || jsTrim s.content == ""

/-- A click on the Save button: a no-op while the button is disabled,
otherwise `handleSave`. -/
def applySaveClick (s : EditorState) : EditorState :=
  if saveButtonDisabled s then s else handleSave s

/-- Settlement of the in-flight request.  `outcome` is the promise result:
`Except.ok newId` on success (a successful create response carries the new
note's id), `Except.error msg` on rejection.  Auto path: record the id on
a successful create, status to saved on success, to unsaved on failure,
release the lock in the finally block.  Manual path: navigate to the
dashboard on success, surface the error on failure, and in both cases the
finally block releases the lock and sets status to saved. -/
def applyResolve (s : EditorState) (outcome : Except String String) : EditorState :=
  match s.inflight with
  | none => s
  | some fl =>
    let ok : Bool := match outcome with | .ok _ => true | .error _ => false
    let s1 : EditorState :=
      { s with inflight := none
               saveResults := s.saveResults ++ [(fl.call, ok)] }
    match fl.kind, outcome with
    | .auto, .ok newId =>
        let s2 : EditorState :=
          match fl.call with
          | .create _ _ => { s1 with createdNoteId := some newId }
          | _ => s1
        { s2 with autoSaveStatus := .saved, saving := false }
    | .auto, .error _ =>
        { s1 with autoSaveStatus := .unsaved, saving := false }
    | .manual, .ok _ =>
        { s1 with sessionOpen := false
                  navigatedTo := some "/dashboard"
                  saving := false
                  autoSaveStatus := .saved }
    | .manual, .error msg =>
        { s1 with error := some msg
                  saving := false
                  autoSaveStatus := .saved }

/-- The `handleDelete` handler: return unless the session was opened on a route id;
ask for confirmation; on yes, call `deleteNote(id)` and navigate to the
dashboard on success or surface the error on failure; on no, do
nothing. -/
def applyDelete (s : EditorState) (confirmed : Bool) (ok : Bool) : EditorState :=
  match s.urlId with
  | none => s
  | some nid =>
    if confirmed then
      let s1 : EditorState := { s with calls := s.calls ++ [.delete nid] }
      if ok then { s1 with sessionOpen := false, navigatedTo := some "/dashboard" }
      else { s1 with error := some "Failed to delete note" }
    else s

/-- Successful completion of the initial `fetchNote`: only ever issued for
a session opened on an existing note; stores the note and sets the draft
from it, which re-runs the debounce effect. -/
def applyFetchDone (s : EditorState) (ft fc : String) : EditorState :=
  match s.urlId with
  | none => s
  | some _ =>
      debounceEffect { s with noteLoaded := true, title := ft, content := fc }

/-- External events of one editing session. -/
inductive Event where
  | input (t c : String)
  | timerFire
  | saveClick
  | resolve (outcome : Except String String)
  | deleteClick (confirmed : Bool) (ok : Bool)
  | fetchDone (ft fc : String)

/-- One step of the session.  A settled promise is processed regardless of
navigation; every user-driven event is a no-op once the session has been
left (the component is unmounted and its unmount cleanup has cancelled the
timer). -/
def step (s : EditorState) (e : Event) : EditorState :=
  match e with
  | .resolve o => applyResolve s o
  | .input t c => if s.sessionOpen then applyInput s t c else s
  | .timerFire =>
      if s.sessionOpen then
        match s.timer with
        | none => s
        | some ti => handleAutoSaveFire s ti
      else s
  | .saveClick => if s.sessionOpen then applySaveClick s else s
  | .deleteClick c ok => if s.sessionOpen then applyDelete s c ok else s
  | .fetchDone ft fc => if s.sessionOpen then applyFetchDone s ft fc else s

/-- Run a session from a state through a list of events. -/
def run (s : EditorState) (evs : List Event) : EditorState :=
  evs.foldl step s

/-- The `isEditing` flag: `Boolean(id)`. -/
def isEditing (s : EditorState) : Bool :=
  s.urlId.isSome

/-- The footer (`isEditing && note && ...`) together with the Delete Note
button inside it (`isEditing && ...`) is rendered. -/
def deleteControlRendered (s : EditorState) : Bool :=
  (isEditing s && s.noteLoaded) && isEditing s

/-- The call is a persistence (create-or-edit) call. -/
def isSaveCall : ApiCall → Bool
  | .create _ _ => true
  | .edit _ _ _ => true
  | .delete _ => false

/-- The call is a `createNote` call. -/
def isCreate : ApiCall → Bool
  | .create _ _ => true
  | _ => false

/-- The call is an `editNote` call. -/
def isEditCall : ApiCall → Bool
  | .edit _ _ _ => true
  | _ => false

/-- The call is an `editNote` call targeting `nid`. -/
def isEditOf (nid : String) : ApiCall → Bool
  | .edit i _ _ => i == nid
  | _ => false

/-- Number of `createNote` calls in a call log. -/
def numCreates (l : List ApiCall) : Nat := (l.filter isCreate).length

/-- Number of `editNote` calls in a call log. -/
def numEdits (l : List ApiCall) : Nat := (l.filter isEditCall).length

/-- Number of settled attempts whose call was a create. -/
def numResCreates (l : List (ApiCall × Bool)) : Nat :=
  (l.filter (fun r => isCreate r.1)).length

/-- Number of settled attempts whose call was an edit. -/
def numResEdits (l : List (ApiCall × Bool)) : Nat :=
  (l.filter (fun r => isEditCall r.1)).length

/-- Number of successfully settled attempts. -/
def numSucc (l : List (ApiCall × Bool)) : Nat :=
  (l.filter (fun r => r.2)).length

/-- Number of successfully settled `createNote` attempts. -/
def numSuccCreates (l : List (ApiCall × Bool)) : Nat :=
  (l.filter (fun r => r.2 && isCreate r.1)).length

/-- Number of successfully settled `editNote` attempts. -/
def numSuccEdits (l : List (ApiCall × Bool)) : Nat :=
  (l.filter (fun r => r.2 && isEditCall r.1)).length

/-- Contribution of the in-flight slot to the create-call count. -/
def inflCreates : Option Inflight → Nat
  | some fl => if isCreate fl.call then 1 else 0
  | none => 0

/-- Contribution of the in-flight slot to the edit-call count. -/
def inflEdits : Option Inflight → Nat
  | some fl => if isEditCall fl.call then 1 else 0
  | none => 0

/-! Basic facts about call shapes and counts. -/

theorem isSaveCall_mkSaveCall (x : Option String) (t c : String) :
    isSaveCall (mkSaveCall x t c) = true := by
  cases x <;> rfl

theorem isCreate_save (c : ApiCall) (h : isCreate c = true) : isSaveCall c = true := by
  cases c <;> simp_all [isCreate, isSaveCall]

theorem isEditCall_save (c : ApiCall) (h : isEditCall c = true) : isSaveCall c = true := by
  cases c <;> simp_all [isEditCall, isSaveCall]

theorem save_create_or_edit (c : ApiCall) (h : isSaveCall c = true) :
    isCreate c = true ∨ isEditCall c = true := by
  cases c <;> simp_all [isCreate, isEditCall, isSaveCall]

theorem create_not_edit (c : ApiCall) (h : isCreate c = true) : isEditCall c = false := by
  cases c <;> simp_all [isCreate, isEditCall]

theorem delete_not_save (i : String) : isSaveCall (.delete i) = false := rfl

theorem mkSaveCall_create (t c : String) :
    mkSaveCall none t c = .create (optTitle t) (jsTrim c) := rfl

theorem mkSaveCall_edit (i : String) (t c : String) :
    mkSaveCall (some i) t c = .edit i (optTitle t) (jsTrim c) := rfl

theorem isCreate_mkSaveCall (x : Option String) (t c : String) :
    isCreate (mkSaveCall x t c) = x.isNone := by
  cases x <;> rfl

theorem isEditCall_mkSaveCall (x : Option String) (t c : String) :
    isEditCall (mkSaveCall x t c) = x.isSome := by
  cases x <;> rfl

theorem numCreates_append (l1 l2 : List ApiCall) :
    numCreates (l1 ++ l2) = numCreates l1 + numCreates l2 := by
  simp [numCreates, List.filter_append]

theorem numEdits_append (l1 l2 : List ApiCall) :
    numEdits (l1 ++ l2) = numEdits l1 + numEdits l2 := by
  simp [numEdits, List.filter_append]

theorem numResCreates_append (l1 l2 : List (ApiCall × Bool)) :
    numResCreates (l1 ++ l2) = numResCreates l1 + numResCreates l2 := by
  simp [numResCreates, List.filter_append]

theorem numResEdits_append (l1 l2 : List (ApiCall × Bool)) :
    numResEdits (l1 ++ l2) = numResEdits l1 + numResEdits l2 := by
  simp [numResEdits, List.filter_append]

theorem numSucc_append (l1 l2 : List (ApiCall × Bool)) :
    numSucc (l1 ++ l2) = numSucc l1 + numSucc l2 := by
  simp [numSucc, List.filter_append]

theorem numSuccCreates_append (l1 l2 : List (ApiCall × Bool)) :
    numSuccCreates (l1 ++ l2) = numSuccCreates l1 + numSuccCreates l2 := by
  simp [numSuccCreates, List.filter_append]

theorem numSuccEdits_append (l1 l2 : List (ApiCall × Bool)) :
    numSuccEdits (l1 ++ l2) = numSuccEdits l1 + numSuccEdits l2 := by
  simp [numSuccEdits, List.filter_append]

theorem numSuccCreates_le_numSucc (l : List (ApiCall × Bool)) :
    numSuccCreates l ≤ numSucc l := by
  induction l with
  | nil => simp [numSuccCreates, numSucc]
  | cons r rest ih =>
      unfold numSuccCreates numSucc at ih ⊢
      by_cases h2 : r.2 = true <;> by_cases h1 : isCreate r.1 = true <;>
        simp [List.filter_cons, h2, h1] <;> omega

theorem numSuccEdits_le_numSucc (l : List (ApiCall × Bool)) :
    numSuccEdits l ≤ numSucc l := by
  induction l with
  | nil => simp [numSuccEdits, numSucc]
  | cons r rest ih =>
      unfold numSuccEdits numSucc at ih ⊢
      by_cases h2 : r.2 = true <;> by_cases h1 : isEditCall r.1 = true <;>
        simp [List.filter_cons, h2, h1] <;> omega

theorem numSucc_split (l : List (ApiCall × Bool))
    (h : ∀ r ∈ l, isSaveCall r.1 = true) :
    numSucc l = numSuccCreates l + numSuccEdits l := by
  induction l with
  | nil => simp [numSucc, numSuccCreates, numSuccEdits]
  | cons r rest ih =>
      have hr : isSaveCall r.1 = true := h r (by simp)
      have hrest : ∀ x ∈ rest, isSaveCall x.1 = true := fun x hx => h x (by simp [hx])
      have hsplit := save_create_or_edit r.1 hr
      unfold numSucc numSuccCreates numSuccEdits at ih ⊢
      by_cases h2 : r.2 = true
      · rcases hsplit with h1 | h1
        · have hne := create_not_edit r.1 h1
          simp [List.filter_cons, h2, h1, hne, ih hrest]
          omega
        · have hnc : isCreate r.1 = false := by
            cases hc : isCreate r.1
            · rfl
            · exact absurd (create_not_edit r.1 hc) (by simp [h1])
          simp [List.filter_cons, h2, h1, hnc, ih hrest]
          omega
      · simp [List.filter_cons, h2, ih hrest]

theorem allSucc_resCreates (l : List (ApiCall × Bool)) (h : ∀ r ∈ l, r.2 = true) :
    numResCreates l = numSuccCreates l := by
  induction l with
  | nil => rfl
  | cons r rest ih =>
      have hr : r.2 = true := h r (by simp)
      have hrest : ∀ x ∈ rest, x.2 = true := fun x hx => h x (by simp [hx])
      unfold numResCreates numSuccCreates at ih ⊢
      by_cases h1 : isCreate r.1 = true <;>
        simp [List.filter_cons, hr, h1, ih hrest]

theorem allSucc_resEdits (l : List (ApiCall × Bool)) (h : ∀ r ∈ l, r.2 = true) :
    numResEdits l = numSuccEdits l := by
  induction l with
  | nil => rfl
  | cons r rest ih =>
      have hr : r.2 = true := h r (by simp)
      have hrest : ∀ x ∈ rest, x.2 = true := fun x hx => h x (by simp [hx])
      unfold numResEdits numSuccEdits at ih ⊢
      by_cases h1 : isEditCall r.1 = true <;>
        simp [List.filter_cons, hr, h1, ih hrest]

theorem allSucc_length (l : List (ApiCall × Bool)) (h : ∀ r ∈ l, r.2 = true) :
    numSucc l = l.length := by
  induction l with
  | nil => rfl
  | cons r rest ih =>
      have hr : r.2 = true := h r (by simp)
      have hrest : ∀ x ∈ rest, x.2 = true := fun x hx => h x (by simp [hx])
      unfold numSucc at ih ⊢
      simp [List.filter_cons, hr, ih hrest]

/-! The inductive invariant of one editing session, preserved by every
event from the initial state. -/

/-- Session invariant: the lock and status discipline of the in-flight
request, the armed timer's snapshot discipline, the delete-target and
footer-render disciplines, and the accounting that ties create/edit calls
to their settlements and to the recorded created-note id. -/
structure Inv (s : EditorState) : Prop where
  flight_saving : s.inflight.isSome → s.saving = true
  flight_status : s.inflight.isSome → s.autoSaveStatus = .saving
  flight_save : ∀ fl, s.inflight = some fl → isSaveCall fl.call = true
  timer_snapshot : ∀ ti, s.timer = some ti →
      ti.title = s.title ∧ ti.content = s.content ∧ ti.delayMs = autoSaveDelayMs
  timer_nonempty : ∀ ti, s.timer = some ti → ¬(ti.title = "" ∧ ti.content = "")
  loaded_url : s.noteLoaded = true → s.urlId.isSome
  deletes_url : ∀ i, ApiCall.delete i ∈ s.calls → s.urlId = some i
  closed_flight : s.urlId = none → s.sessionOpen = false → s.inflight = none
  crt_corr : numCreates s.calls = numResCreates s.saveResults + inflCreates s.inflight
  edt_corr : numEdits s.calls = numResEdits s.saveResults + inflEdits s.inflight
  results_save : ∀ r ∈ s.saveResults, isSaveCall r.1 = true
  saves_create : s.urlId = none → s.createdNoteId = none →
      ∀ c ∈ s.calls, isSaveCall c = true → isCreate c = true
  edits_target : s.urlId = none → ∀ c ∈ s.calls, isEditCall c = true →
      ∃ nid, s.createdNoteId = some nid ∧ isEditOf nid c = true
  flight_create_none : s.urlId = none → ∀ fl, s.inflight = some fl →
      isCreate fl.call = true → s.createdNoteId = none
  flight_edit_target : s.urlId = none → ∀ fl, s.inflight = some fl →
      isEditCall fl.call = true →
      ∃ nid, s.createdNoteId = some nid ∧ isEditOf nid fl.call = true
  succ_none : s.urlId = none → s.createdNoteId = none → s.sessionOpen = true →
      numSucc s.saveResults = 0
  succ_some : s.urlId = none → ∀ nid, s.createdNoteId = some nid →
      numSuccCreates s.saveResults = 1
  succ_edit_none : s.urlId = none → s.createdNoteId = none →
      numSuccEdits s.saveResults = 0
  succ_closed : s.urlId = none → s.createdNoteId = none → s.sessionOpen = false →
      numSuccCreates s.saveResults ≤ 1

theorem inv_init (u : Option String) : Inv (init u) := by
  constructor <;> simp [init, numCreates, numEdits, numResCreates, numResEdits,
    numSucc, numSuccCreates, numSuccEdits, inflCreates, inflEdits]

theorem inv_applyInput (s : EditorState) (t c : String) (h : Inv s) :
    Inv (applyInput s t c) := by
  unfold applyInput debounceEffect
  dsimp only
  by_cases he : t = "" ∧ c = ""
  · rw [if_pos he]
    exact {
      flight_saving := h.flight_saving
      flight_status := h.flight_status
      flight_save := h.flight_save
      timer_snapshot := fun _ hti => nomatch hti
      timer_nonempty := fun _ hti => nomatch hti
      loaded_url := h.loaded_url
      deletes_url := h.deletes_url
      closed_flight := h.closed_flight
      crt_corr := h.crt_corr
      edt_corr := h.edt_corr
      results_save := h.results_save
      saves_create := h.saves_create
      edits_target := h.edits_target
      flight_create_none := h.flight_create_none
      flight_edit_target := h.flight_edit_target
      succ_none := h.succ_none
      succ_some := h.succ_some
      succ_edit_none := h.succ_edit_none
      succ_closed := h.succ_closed }
  · rw [if_neg he]
    by_cases hs : s.saving = true
    · rw [if_pos hs]
      exact {
        flight_saving := h.flight_saving
        flight_status := h.flight_status
        flight_save := h.flight_save
        timer_snapshot := fun _ hti => nomatch hti
        timer_nonempty := fun _ hti => nomatch hti
        loaded_url := h.loaded_url
        deletes_url := h.deletes_url
        closed_flight := h.closed_flight
        crt_corr := h.crt_corr
        edt_corr := h.edt_corr
        results_save := h.results_save
        saves_create := h.saves_create
        edits_target := h.edits_target
        flight_create_none := h.flight_create_none
        flight_edit_target := h.flight_edit_target
        succ_none := h.succ_none
        succ_some := h.succ_some
        succ_edit_none := h.succ_edit_none
        succ_closed := h.succ_closed }
    · rw [if_neg hs]
      have hifl : s.inflight = none := by
        cases hi : s.inflight with
        | none => rfl
        | some fl => exact absurd (h.flight_saving (by simp [hi])) hs
      exact {
        flight_saving := by intro hx; rw [hifl] at hx; cases hx
        flight_status := by intro hx; rw [hifl] at hx; cases hx
        flight_save := by intro fl hfl; rw [hifl] at hfl; cases hfl
        timer_snapshot := by
          intro ti hti
          cases hti
          exact ⟨rfl, rfl, rfl⟩
        timer_nonempty := by
          intro ti hti
          cases hti
          exact he
        loaded_url := h.loaded_url
        deletes_url := h.deletes_url
        closed_flight := h.closed_flight
        crt_corr := h.crt_corr
        edt_corr := h.edt_corr
        results_save := h.results_save
        saves_create := h.saves_create
        edits_target := h.edits_target
        flight_create_none := h.flight_create_none
        flight_edit_target := h.flight_edit_target
        succ_none := h.succ_none
        succ_some := h.succ_some
        succ_edit_none := h.succ_edit_none
        succ_closed := h.succ_closed }

theorem targetId_of_none (s : EditorState) (h1 : s.createdNoteId = none) :
    targetId s = s.urlId := by
  unfold targetId
  rw [h1]

theorem targetId_of_some (s : EditorState) (nid : String)
    (h1 : s.createdNoteId = some nid) : targetId s = some nid := by
  unfold targetId
  rw [h1]

theorem mkSaveCall_ne_delete (x : Option String) (t c i : String) :
    mkSaveCall x t c ≠ .delete i := by
  cases x <;> simp [mkSaveCall]

theorem isEditOf_edit (i : String) (t : Option String) (c : String) :
    isEditOf i (.edit i t c) = true := by
  simp [isEditOf]

theorem numCreates_singleton (c : ApiCall) :
    numCreates [c] = if isCreate c then 1 else 0 := by
  by_cases h1 : isCreate c = true <;> simp [numCreates, List.filter_cons, h1]

theorem numEdits_singleton (c : ApiCall) :
    numEdits [c] = if isEditCall c then 1 else 0 := by
  by_cases h1 : isEditCall c = true <;> simp [numEdits, List.filter_cons, h1]

theorem numResCreates_singleton (r : ApiCall × Bool) :
    numResCreates [r] = if isCreate r.1 then 1 else 0 := by
  by_cases h1 : isCreate r.1 = true <;> simp [numResCreates, List.filter_cons, h1]

theorem numResEdits_singleton (r : ApiCall × Bool) :
    numResEdits [r] = if isEditCall r.1 then 1 else 0 := by
  by_cases h1 : isEditCall r.1 = true <;> simp [numResEdits, List.filter_cons, h1]

theorem numSucc_singleton (r : ApiCall × Bool) :
    numSucc [r] = if r.2 then 1 else 0 := by
  by_cases h1 : r.2 = true <;> simp [numSucc, List.filter_cons, h1]

theorem numSuccCreates_singleton (r : ApiCall × Bool) :
    numSuccCreates [r] = if r.2 && isCreate r.1 then 1 else 0 := by
  by_cases h1 : (r.2 && isCreate r.1) = true <;>
    simp [numSuccCreates, List.filter_cons, h1]

theorem numSuccEdits_singleton (r : ApiCall × Bool) :
    numSuccEdits [r] = if r.2 && isEditCall r.1 then 1 else 0 := by
  by_cases h1 : (r.2 && isEditCall r.1) = true <;>
    simp [numSuccEdits, List.filter_cons, h1]

theorem inv_applyFetchDone (s : EditorState) (ft fc : String) (h : Inv s) :
    Inv (applyFetchDone s ft fc) := by
  unfold applyFetchDone
  cases hu : s.urlId with
  | none => exact h
  | some u =>
    unfold debounceEffect
    dsimp only
    have hdel : ∀ i, ApiCall.delete i ∈ s.calls → some u = some i := by
      intro i hi
      rw [← hu]
      exact h.deletes_url i hi
    by_cases he : ft = "" ∧ fc = ""
    · rw [if_pos he]
      exact {
        flight_saving := h.flight_saving
        flight_status := h.flight_status
        flight_save := h.flight_save
        timer_snapshot := fun _ hti => nomatch hti
        timer_nonempty := fun _ hti => nomatch hti
        loaded_url := fun _ => rfl
        deletes_url := hdel
        closed_flight := fun hn => nomatch hn
        crt_corr := h.crt_corr
        edt_corr := h.edt_corr
        results_save := h.results_save
        saves_create := fun hn => nomatch hn
        edits_target := fun hn => nomatch hn
        flight_create_none := fun hn => nomatch hn
        flight_edit_target := fun hn => nomatch hn
        succ_none := fun hn => nomatch hn
        succ_some := fun hn => nomatch hn
        succ_edit_none := fun hn => nomatch hn
        succ_closed := fun hn => nomatch hn }
    · rw [if_neg he]
      by_cases hs : s.saving = true
      · rw [if_pos hs]
        exact {
          flight_saving := h.flight_saving
          flight_status := h.flight_status
          flight_save := h.flight_save
          timer_snapshot := fun _ hti => nomatch hti
          timer_nonempty := fun _ hti => nomatch hti
          loaded_url := fun _ => rfl
          deletes_url := hdel
          closed_flight := fun hn => nomatch hn
          crt_corr := h.crt_corr
          edt_corr := h.edt_corr
          results_save := h.results_save
          saves_create := fun hn => nomatch hn
          edits_target := fun hn => nomatch hn
          flight_create_none := fun hn => nomatch hn
          flight_edit_target := fun hn => nomatch hn
          succ_none := fun hn => nomatch hn
          succ_some := fun hn => nomatch hn
          succ_edit_none := fun hn => nomatch hn
          succ_closed := fun hn => nomatch hn }
      · rw [if_neg hs]
        have hifl : s.inflight = none := by
          cases hi : s.inflight with
          | none => rfl
          | some fl => exact absurd (h.flight_saving (by simp [hi])) hs
        exact {
          flight_saving := by intro hx; rw [hifl] at hx; cases hx
          flight_status := by intro hx; rw [hifl] at hx; cases hx
          flight_save := by intro fl hfl; rw [hifl] at hfl; cases hfl
          timer_snapshot := by
            intro ti hti
            cases hti
            exact ⟨rfl, rfl, rfl⟩
          timer_nonempty := by
            intro ti hti
            cases hti
            exact he
          loaded_url := fun _ => rfl
          deletes_url := hdel
          closed_flight := fun hn => nomatch hn
          crt_corr := h.crt_corr
          edt_corr := h.edt_corr
          results_save := h.results_save
          saves_create := fun hn => nomatch hn
          edits_target := fun hn => nomatch hn
          flight_create_none := fun hn => nomatch hn
          flight_edit_target := fun hn => nomatch hn
          succ_none := fun hn => nomatch hn
          succ_some := fun hn => nomatch hn
          succ_edit_none := fun hn => nomatch hn
          succ_closed := fun hn => nomatch hn }

theorem inv_clearTimer (s : EditorState) (h : Inv s) : Inv { s with timer := none } :=
  { flight_saving := h.flight_saving
    flight_status := h.flight_status
    flight_save := h.flight_save
    timer_snapshot := fun _ hti => nomatch hti
    timer_nonempty := fun _ hti => nomatch hti
    loaded_url := h.loaded_url
    deletes_url := h.deletes_url
    closed_flight := h.closed_flight
    crt_corr := h.crt_corr
    edt_corr := h.edt_corr
    results_save := h.results_save
    saves_create := h.saves_create
    edits_target := h.edits_target
    flight_create_none := h.flight_create_none
    flight_edit_target := h.flight_edit_target
    succ_none := h.succ_none
    succ_some := h.succ_some
    succ_edit_none := h.succ_edit_none
    succ_closed := h.succ_closed }

theorem inv_initiateSave (s : EditorState) (k : SaveKind) (t c : String)
    (err : Option String) (h : Inv s) (hopen : s.sessionOpen = true)
    (hifl : s.inflight = none) :
    Inv { s with timer := none
                 autoSaveStatus := .saving
                 saving := true
                 error := err
                 inflight := some ⟨k, mkSaveCall (targetId s) t c⟩
                 calls := s.calls ++ [mkSaveCall (targetId s) t c] } := by
  refine {
    flight_saving := fun _ => rfl
    flight_status := fun _ => rfl
    flight_save := ?_
    timer_snapshot := fun _ hti => nomatch hti
    timer_nonempty := fun _ hti => nomatch hti
    loaded_url := h.loaded_url
    deletes_url := ?_
    closed_flight := ?_
    crt_corr := ?_
    edt_corr := ?_
    results_save := h.results_save
    saves_create := ?_
    edits_target := ?_
    flight_create_none := ?_
    flight_edit_target := ?_
    succ_none := h.succ_none
    succ_some := h.succ_some
    succ_edit_none := h.succ_edit_none
    succ_closed := h.succ_closed }
  · intro fl hfl
    cases hfl
    exact isSaveCall_mkSaveCall _ _ _
  · intro i hi
    rcases List.mem_append.mp hi with hm | hm
    · exact h.deletes_url i hm
    · exact absurd (List.mem_singleton.mp hm).symm (mkSaveCall_ne_delete _ _ _ _)
  · intro hn hcl
    rw [hopen] at hcl
    cases hcl
  · rw [numCreates_append, numCreates_singleton, h.crt_corr, hifl]
    simp [inflCreates]
  · rw [numEdits_append, numEdits_singleton, h.edt_corr, hifl]
    simp [inflEdits]
  · intro hn hid c2 hc2 hcs
    rcases List.mem_append.mp hc2 with hm | hm
    · exact h.saves_create hn hid c2 hm hcs
    · rw [List.mem_singleton.mp hm, isCreate_mkSaveCall, targetId_of_none s hid, hn]
      rfl
  · intro hn c2 hc2 hce
    rcases List.mem_append.mp hc2 with hm | hm
    · exact h.edits_target hn c2 hm hce
    · cases hcr : s.createdNoteId with
      | none =>
          exfalso
          rw [List.mem_singleton.mp hm, isEditCall_mkSaveCall,
            targetId_of_none s hcr, hn] at hce
          cases hce
      | some nid =>
          refine ⟨nid, rfl, ?_⟩
          rw [List.mem_singleton.mp hm, targetId_of_some s nid hcr, mkSaveCall_edit]
          exact isEditOf_edit nid _ _
  · intro hn fl hfl hcr
    cases hfl
    cases hcc : s.createdNoteId with
    | none => rfl
    | some nid =>
        exfalso
        simp only [isCreate_mkSaveCall, targetId_of_some s nid hcc] at hcr
        cases hcr
  · intro hn fl hfl hce
    cases hfl
    have hn2 : s.urlId = none := hn
    cases hcr : s.createdNoteId with
    | none =>
        exfalso
        have htg : targetId s = none := by rw [targetId_of_none s hcr, hn2]
        simp only [isEditCall_mkSaveCall, htg] at hce
        cases hce
    | some nid =>
        refine ⟨nid, rfl, ?_⟩
        simp only [targetId_of_some s nid hcr, mkSaveCall_edit]
        exact isEditOf_edit nid _ _

theorem inv_handleAutoSaveFire (s : EditorState) (ti : TimerInfo)
    (hopen : s.sessionOpen = true) (h : Inv s) :
    Inv (handleAutoSaveFire s ti) := by
  unfold handleAutoSaveFire
  dsimp only
  by_cases hc : jsTrim ti.content = ""
  · rw [if_pos hc]
    exact inv_clearTimer s h
  · rw [if_neg hc]
    by_cases hg : s.saving = true ∨ s.autoSaveStatus = SaveStatus.saving
    · rw [if_pos hg]
      exact inv_clearTimer s h
    · rw [if_neg hg]
      have hsv : s.saving = false := by
        cases hv : s.saving
        · rfl
        · exact absurd (Or.inl hv) hg
      have hifl : s.inflight = none := by
        cases hi : s.inflight with
        | none => rfl
        | some fl =>
            have := h.flight_saving (by simp [hi])
            rw [hsv] at this
            cases this
      exact inv_initiateSave s .auto ti.title ti.content s.error h hopen hifl

theorem inv_applySaveClick (s : EditorState) (hopen : s.sessionOpen = true)
    (h : Inv s) : Inv (applySaveClick s) := by
  unfold applySaveClick
  by_cases hd : saveButtonDisabled s = true
  · rw [if_pos hd]
    exact h
  · rw [if_neg hd]
    unfold handleSave
    dsimp only
    have hsv : s.saving = false := by
      cases hv : s.saving
      · rfl
      · exact absurd (by simp [saveButtonDisabled, hv]) hd
    have hcne : ¬ jsTrim s.content = "" := by
      intro hcc
      exact hd (by simp [saveButtonDisabled, hcc])
    rw [if_neg hcne]
    have hifl : s.inflight = none := by
      cases hi : s.inflight with
      | none => rfl
      | some fl =>
          have := h.flight_saving (by simp [hi])
          rw [hsv] at this
          cases this
    exact inv_initiateSave s .manual s.title s.content none h hopen hifl

theorem inv_applyResolve (s : EditorState) (o : Except String String) (h : Inv s) :
    Inv (applyResolve s o) := by
  unfold applyResolve
  cases hi : s.inflight with
  | none => exact h
  | some fl =>
    have hopen_of_none : s.urlId = none → s.sessionOpen = true := by
      intro hn
      cases ho : s.sessionOpen
      · have := h.closed_flight hn ho
        rw [hi] at this
        cases this
      · rfl
    obtain ⟨k, call⟩ := fl
    have hsave : isSaveCall call = true := h.flight_save ⟨k, call⟩ hi
    dsimp only
    cases k with
    | auto =>
      cases o with
      | ok newId =>
        cases call with
        | delete i => exact absurd hsave (by simp [isSaveCall])
        | create ct cc =>
          dsimp only
          exact {
            flight_saving := fun hx => nomatch hx
            flight_status := fun hx => nomatch hx
            flight_save := fun fl2 hfl2 => nomatch hfl2
            timer_snapshot := h.timer_snapshot
            timer_nonempty := h.timer_nonempty
            loaded_url := h.loaded_url
            deletes_url := h.deletes_url
            closed_flight := fun _ _ => rfl
            crt_corr := by
              rw [numResCreates_append, numResCreates_singleton, h.crt_corr, hi]
              simp [inflCreates, isCreate]
            edt_corr := by
              rw [numResEdits_append, numResEdits_singleton, h.edt_corr, hi]
              simp [inflEdits, isEditCall]
            results_save := by
              intro r hr
              rcases List.mem_append.mp hr with hm | hm
              · exact h.results_save r hm
              · rw [List.mem_singleton.mp hm]
                exact hsave
            saves_create := fun _ hcn => nomatch hcn
            edits_target := by
              intro hn c2 hc2 hce
              exfalso
              have hn2 : s.urlId = none := hn
              have hcrn : s.createdNoteId = none :=
                h.flight_create_none hn2 ⟨.auto, .create ct cc⟩ hi rfl
              obtain ⟨nid, hnid, _⟩ := h.edits_target hn2 c2 hc2 hce
              rw [hcrn] at hnid
              cases hnid
            flight_create_none := fun _ fl2 hfl2 => nomatch hfl2
            flight_edit_target := fun _ fl2 hfl2 => nomatch hfl2
            succ_none := fun _ hcn => nomatch hcn
            succ_some := by
              intro hn nid hnid
              have hn2 : s.urlId = none := hn
              have hcrn : s.createdNoteId = none :=
                h.flight_create_none hn2 ⟨.auto, .create ct cc⟩ hi rfl
              have h0 : numSucc s.saveResults = 0 :=
                h.succ_none hn2 hcrn (hopen_of_none hn2)
              have h0c : numSuccCreates s.saveResults = 0 :=
                Nat.le_antisymm (h0 ▸ numSuccCreates_le_numSucc s.saveResults)
                  (Nat.zero_le _)
              rw [numSuccCreates_append, numSuccCreates_singleton, h0c]
              simp [isCreate]
            succ_edit_none := fun _ hcn => nomatch hcn
            succ_closed := fun _ hcn => nomatch hcn }
        | edit i ct cc =>
          dsimp only
          exact {
            flight_saving := fun hx => nomatch hx
            flight_status := fun hx => nomatch hx
            flight_save := fun fl2 hfl2 => nomatch hfl2
            timer_snapshot := h.timer_snapshot
            timer_nonempty := h.timer_nonempty
            loaded_url := h.loaded_url
            deletes_url := h.deletes_url
            closed_flight := fun _ _ => rfl
            crt_corr := by
              rw [numResCreates_append, numResCreates_singleton, h.crt_corr, hi]
              simp [inflCreates, isCreate]
            edt_corr := by
              rw [numResEdits_append, numResEdits_singleton, h.edt_corr, hi]
              simp [inflEdits, isEditCall]
            results_save := by
              intro r hr
              rcases List.mem_append.mp hr with hm | hm
              · exact h.results_save r hm
              · rw [List.mem_singleton.mp hm]
                exact hsave
            saves_create := h.saves_create
            edits_target := h.edits_target
            flight_create_none := fun _ fl2 hfl2 => nomatch hfl2
            flight_edit_target := fun _ fl2 hfl2 => nomatch hfl2
            succ_none := by
              intro hn hcn hop
              exfalso
              have hn2 : s.urlId = none := hn
              have hcn2 : s.createdNoteId = none := hcn
              obtain ⟨nid, hnid, _⟩ :=
                h.flight_edit_target hn2 ⟨.auto, .edit i ct cc⟩ hi rfl
              rw [hcn2] at hnid
              cases hnid
            succ_some := by
              intro hn nid hnid
              have hn2 : s.urlId = none := hn
              have hnid2 : s.createdNoteId = some nid := hnid
              rw [numSuccCreates_append, numSuccCreates_singleton,
                h.succ_some hn2 nid hnid2]
              simp [isCreate]
            succ_edit_none := by
              intro hn hcn
              exfalso
              have hn2 : s.urlId = none := hn
              have hcn2 : s.createdNoteId = none := hcn
              obtain ⟨nid, hnid, _⟩ :=
                h.flight_edit_target hn2 ⟨.auto, .edit i ct cc⟩ hi rfl
              rw [hcn2] at hnid
              cases hnid
            succ_closed := by
              intro hn hcn _
              exfalso
              have hn2 : s.urlId = none := hn
              have hcn2 : s.createdNoteId = none := hcn
              obtain ⟨nid, hnid, _⟩ :=
                h.flight_edit_target hn2 ⟨.auto, .edit i ct cc⟩ hi rfl
              rw [hcn2] at hnid
              cases hnid }
      | error msg =>
        dsimp only
        exact {
          flight_saving := fun hx => nomatch hx
          flight_status := fun hx => nomatch hx
          flight_save := fun fl2 hfl2 => nomatch hfl2
          timer_snapshot := h.timer_snapshot
          timer_nonempty := h.timer_nonempty
          loaded_url := h.loaded_url
          deletes_url := h.deletes_url
          closed_flight := fun _ _ => rfl
          crt_corr := by
            rw [numResCreates_append, numResCreates_singleton, h.crt_corr, hi]
            simp [inflCreates]
          edt_corr := by
            rw [numResEdits_append, numResEdits_singleton, h.edt_corr, hi]
            simp [inflEdits]
          results_save := by
            intro r hr
            rcases List.mem_append.mp hr with hm | hm
            · exact h.results_save r hm
            · rw [List.mem_singleton.mp hm]
              exact hsave
          saves_create := h.saves_create
          edits_target := h.edits_target
          flight_create_none := fun _ fl2 hfl2 => nomatch hfl2
          flight_edit_target := fun _ fl2 hfl2 => nomatch hfl2
          succ_none := by
            intro hn hcn hop
            have hn2 : s.urlId = none := hn
            have hcn2 : s.createdNoteId = none := hcn
            rw [numSucc_append, numSucc_singleton,
              h.succ_none hn2 hcn2 (hopen_of_none hn2)]
            simp
          succ_some := by
            intro hn nid hnid
            have hn2 : s.urlId = none := hn
            have hnid2 : s.createdNoteId = some nid := hnid
            rw [numSuccCreates_append, numSuccCreates_singleton,
              h.succ_some hn2 nid hnid2]
            simp
          succ_edit_none := by
            intro hn hcn
            have hn2 : s.urlId = none := hn
            have hcn2 : s.createdNoteId = none := hcn
            rw [numSuccEdits_append, numSuccEdits_singleton,
              h.succ_edit_none hn2 hcn2]
            simp
          succ_closed := by
            intro hn _ hcl
            have hn2 : s.urlId = none := hn
            have hop : s.sessionOpen = true := hopen_of_none hn2
            have hcl2 : s.sessionOpen = false := hcl
            rw [hop] at hcl2
            cases hcl2 }
    | manual =>
      cases o with
      | ok newId =>
        dsimp only
        exact {
          flight_saving := fun hx => nomatch hx
          flight_status := fun hx => nomatch hx
          flight_save := fun fl2 hfl2 => nomatch hfl2
          timer_snapshot := h.timer_snapshot
          timer_nonempty := h.timer_nonempty
          loaded_url := h.loaded_url
          deletes_url := h.deletes_url
          closed_flight := fun _ _ => rfl
          crt_corr := by
            rw [numResCreates_append, numResCreates_singleton, h.crt_corr, hi]
            simp [inflCreates]
          edt_corr := by
            rw [numResEdits_append, numResEdits_singleton, h.edt_corr, hi]
            simp [inflEdits]
          results_save := by
            intro r hr
            rcases List.mem_append.mp hr with hm | hm
            · exact h.results_save r hm
            · rw [List.mem_singleton.mp hm]
              exact hsave
          saves_create := h.saves_create
          edits_target := h.edits_target
          flight_create_none := fun _ fl2 hfl2 => nomatch hfl2
          flight_edit_target := fun _ fl2 hfl2 => nomatch hfl2
          succ_none := fun _ _ hop => nomatch hop
          succ_some := by
            intro hn nid hnid
            have hn2 : s.urlId = none := hn
            have hnid2 : s.createdNoteId = some nid := hnid
            have hcf : isCreate call = false := by
              cases hcv : isCreate call
              · rfl
              · have := h.flight_create_none hn2 ⟨.manual, call⟩ hi hcv
                rw [hnid2] at this
                cases this
            rw [numSuccCreates_append, numSuccCreates_singleton,
              h.succ_some hn2 nid hnid2]
            simp [hcf]
          succ_edit_none := by
            intro hn hcn
            have hn2 : s.urlId = none := hn
            have hcn2 : s.createdNoteId = none := hcn
            have hce : isEditCall call = false := by
              cases hev : isEditCall call
              · rfl
              · obtain ⟨nid, hnid, _⟩ :=
                  h.flight_edit_target hn2 ⟨.manual, call⟩ hi hev
                rw [hcn2] at hnid
                cases hnid
            rw [numSuccEdits_append, numSuccEdits_singleton,
              h.succ_edit_none hn2 hcn2]
            simp [hce]
          succ_closed := by
            intro hn hcn _
            have hn2 : s.urlId = none := hn
            have hcn2 : s.createdNoteId = none := hcn
            have h0 : numSucc s.saveResults = 0 :=
              h.succ_none hn2 hcn2 (hopen_of_none hn2)
            have h0c : numSuccCreates s.saveResults = 0 :=
              Nat.le_antisymm (h0 ▸ numSuccCreates_le_numSucc s.saveResults)
                (Nat.zero_le _)
            rw [numSuccCreates_append, numSuccCreates_singleton, h0c]
            split <;> omega }
      | error msg =>
        dsimp only
        exact {
          flight_saving := fun hx => nomatch hx
          flight_status := fun hx => nomatch hx
          flight_save := fun fl2 hfl2 => nomatch hfl2
          timer_snapshot := h.timer_snapshot
          timer_nonempty := h.timer_nonempty
          loaded_url := h.loaded_url
          deletes_url := h.deletes_url
          closed_flight := fun _ _ => rfl
          crt_corr := by
            rw [numResCreates_append, numResCreates_singleton, h.crt_corr, hi]
            simp [inflCreates]
          edt_corr := by
            rw [numResEdits_append, numResEdits_singleton, h.edt_corr, hi]
            simp [inflEdits]
          results_save := by
            intro r hr
            rcases List.mem_append.mp hr with hm | hm
            · exact h.results_save r hm
            · rw [List.mem_singleton.mp hm]
              exact hsave
          saves_create := h.saves_create
          edits_target := h.edits_target
          flight_create_none := fun _ fl2 hfl2 => nomatch hfl2
          flight_edit_target := fun _ fl2 hfl2 => nomatch hfl2
          succ_none := by
            intro hn hcn hop
            have hn2 : s.urlId = none := hn
            have hcn2 : s.createdNoteId = none := hcn
            rw [numSucc_append, numSucc_singleton,
              h.succ_none hn2 hcn2 (hopen_of_none hn2)]
            simp
          succ_some := by
            intro hn nid hnid
            have hn2 : s.urlId = none := hn
            have hnid2 : s.createdNoteId = some nid := hnid
            rw [numSuccCreates_append, numSuccCreates_singleton,
              h.succ_some hn2 nid hnid2]
            simp
          succ_edit_none := by
            intro hn hcn
            have hn2 : s.urlId = none := hn
            have hcn2 : s.createdNoteId = none := hcn
            rw [numSuccEdits_append, numSuccEdits_singleton,
              h.succ_edit_none hn2 hcn2]
            simp
          succ_closed := by
            intro hn _ hcl
            have hn2 : s.urlId = none := hn
            have hop : s.sessionOpen = true := hopen_of_none hn2
            have hcl2 : s.sessionOpen = false := hcl
            rw [hop] at hcl2
            cases hcl2 }

theorem inv_applyDelete (s : EditorState) (cf ok : Bool) (h : Inv s) :
    Inv (applyDelete s cf ok) := by
  unfold applyDelete
  cases hu : s.urlId with
  | none => exact h
  | some nid =>
    cases cf with
    | false => exact h
    | true =>
      have hcore : ∀ i, ApiCall.delete i ∈ s.calls ++ [ApiCall.delete nid] →
          some nid = some i := by
        intro i hi2
        rcases List.mem_append.mp hi2 with hm | hm
        · rw [← hu]
          exact h.deletes_url i hm
        · have h3 := List.mem_singleton.mp hm
          injection h3 with h4
          rw [h4]
      have hcrt : numCreates (s.calls ++ [ApiCall.delete nid]) =
          numResCreates s.saveResults + inflCreates s.inflight := by
        rw [numCreates_append, numCreates_singleton, h.crt_corr]
        simp [isCreate]
      have hedt : numEdits (s.calls ++ [ApiCall.delete nid]) =
          numResEdits s.saveResults + inflEdits s.inflight := by
        rw [numEdits_append, numEdits_singleton, h.edt_corr]
        simp [isEditCall]
      cases ok with
      | true =>
        exact {
          flight_saving := h.flight_saving
          flight_status := h.flight_status
          flight_save := h.flight_save
          timer_snapshot := h.timer_snapshot
          timer_nonempty := h.timer_nonempty
          loaded_url := fun _ => rfl
          deletes_url := hcore
          closed_flight := fun hn => nomatch hn
          crt_corr := hcrt
          edt_corr := hedt
          results_save := h.results_save
          saves_create := fun hn => nomatch hn
          edits_target := fun hn => nomatch hn
          flight_create_none := fun hn => nomatch hn
          flight_edit_target := fun hn => nomatch hn
          succ_none := fun hn => nomatch hn
          succ_some := fun hn => nomatch hn
          succ_edit_none := fun hn => nomatch hn
          succ_closed := fun hn => nomatch hn }
      | false =>
        exact {
          flight_saving := h.flight_saving
          flight_status := h.flight_status
          flight_save := h.flight_save
          timer_snapshot := h.timer_snapshot
          timer_nonempty := h.timer_nonempty
          loaded_url := fun _ => rfl
          deletes_url := hcore
          closed_flight := fun hn => nomatch hn
          crt_corr := hcrt
          edt_corr := hedt
          results_save := h.results_save
          saves_create := fun hn => nomatch hn
          edits_target := fun hn => nomatch hn
          flight_create_none := fun hn => nomatch hn
          flight_edit_target := fun hn => nomatch hn
          succ_none := fun hn => nomatch hn
          succ_some := fun hn => nomatch hn
          succ_edit_none := fun hn => nomatch hn
          succ_closed := fun hn => nomatch hn }

theorem inv_step (s : EditorState) (e : Event) (h : Inv s) : Inv (step s e) := by
  cases e with
  | input t c =>
      unfold step
      dsimp only
      by_cases ho : s.sessionOpen = true
      · rw [if_pos ho]
        exact inv_applyInput s t c h
      · rw [if_neg ho]
        exact h
  | timerFire =>
      unfold step
      dsimp only
      by_cases ho : s.sessionOpen = true
      · rw [if_pos ho]
        cases ht : s.timer with
        | none => exact h
        | some ti => exact inv_handleAutoSaveFire s ti ho h
      · rw [if_neg ho]
        exact h
  | saveClick =>
      unfold step
      dsimp only
      by_cases ho : s.sessionOpen = true
      · rw [if_pos ho]
        exact inv_applySaveClick s ho h
      · rw [if_neg ho]
        exact h
  | resolve o => exact inv_applyResolve s o h
  | deleteClick cf ok =>
      unfold step
      dsimp only
      by_cases ho : s.sessionOpen = true
      · rw [if_pos ho]
        exact inv_applyDelete s cf ok h
      · rw [if_neg ho]
        exact h
  | fetchDone ft fc =>
      unfold step
      dsimp only
      by_cases ho : s.sessionOpen = true
      · rw [if_pos ho]
        exact inv_applyFetchDone s ft fc h
      · rw [if_neg ho]
        exact h

theorem inv_run (s : EditorState) (evs : List Event) (h : Inv s) :
    Inv (run s evs) := by
  induction evs generalizing s with
  | nil => exact h
  | cons e rest ih => exact ih (step s e) (inv_step s e h)

theorem inv_reach (u : Option String) (evs : List Event) :
    Inv (run (init u) evs) :=
  inv_run (init u) evs (inv_init u)

/-! Frame lemmas: which state fields each operation leaves untouched. -/

theorem run_append (s : EditorState) (l1 l2 : List Event) :
    run s (l1 ++ l2) = run (run s l1) l2 := by
  simp [run, List.foldl_append]

theorem applyInput_frame (s : EditorState) (t c : String) :
    (applyInput s t c).saving = s.saving ∧
    (applyInput s t c).sessionOpen = s.sessionOpen ∧
    (applyInput s t c).calls = s.calls ∧
    (applyInput s t c).createdNoteId = s.createdNoteId ∧
    (applyInput s t c).urlId = s.urlId ∧
    (applyInput s t c).inflight = s.inflight ∧
    (applyInput s t c).saveResults = s.saveResults ∧
    (applyInput s t c).noteLoaded = s.noteLoaded := by
  unfold applyInput debounceEffect
  dsimp only
  split
  · exact ⟨rfl, rfl, rfl, rfl, rfl, rfl, rfl, rfl⟩
  · split
    · exact ⟨rfl, rfl, rfl, rfl, rfl, rfl, rfl, rfl⟩
    · exact ⟨rfl, rfl, rfl, rfl, rfl, rfl, rfl, rfl⟩

theorem handleAutoSaveFire_urlId (s : EditorState) (ti : TimerInfo) :
    (handleAutoSaveFire s ti).urlId = s.urlId := by
  unfold handleAutoSaveFire
  dsimp only
  split
  · rfl
  · split
    · rfl
    · rfl

theorem applySaveClick_urlId (s : EditorState) :
    (applySaveClick s).urlId = s.urlId := by
  unfold applySaveClick handleSave
  dsimp only
  split
  · rfl
  · split
    · rfl
    · rfl

theorem applyResolve_frame (s : EditorState) (o : Except String String) :
    (applyResolve s o).calls = s.calls ∧
    (applyResolve s o).urlId = s.urlId ∧
    (applyResolve s o).title = s.title ∧
    (applyResolve s o).content = s.content ∧
    (applyResolve s o).timer = s.timer ∧
    (applyResolve s o).noteLoaded = s.noteLoaded := by
  unfold applyResolve
  cases s.inflight with
  | none => exact ⟨rfl, rfl, rfl, rfl, rfl, rfl⟩
  | some fl =>
      obtain ⟨k, call⟩ := fl
      cases k <;> cases o <;> dsimp only
      case auto.ok newId =>
        cases call <;> exact ⟨rfl, rfl, rfl, rfl, rfl, rfl⟩
      all_goals exact ⟨rfl, rfl, rfl, rfl, rfl, rfl⟩

theorem applyDelete_urlId (s : EditorState) (cf ok : Bool) :
    (applyDelete s cf ok).urlId = s.urlId := by
  unfold applyDelete
  cases hu : s.urlId with
  | none => exact hu
  | some nid =>
      cases cf with
      | false => exact hu
      | true => cases ok <;> rfl

theorem applyFetchDone_frame (s : EditorState) (ft fc : String) :
    (applyFetchDone s ft fc).calls = s.calls ∧
    (applyFetchDone s ft fc).urlId = s.urlId ∧
    (applyFetchDone s ft fc).saving = s.saving ∧
    (applyFetchDone s ft fc).inflight = s.inflight := by
  unfold applyFetchDone debounceEffect
  cases hu : s.urlId with
  | none => exact ⟨rfl, hu, rfl, rfl⟩
  | some u =>
      dsimp only
      split
      · exact ⟨rfl, rfl, rfl, rfl⟩
      · split
        · exact ⟨rfl, rfl, rfl, rfl⟩
        · exact ⟨rfl, rfl, rfl, rfl⟩

theorem step_urlId (s : EditorState) (e : Event) : (step s e).urlId = s.urlId := by
  cases e with
  | input t c =>
      unfold step
      dsimp only
      split
      · exact (applyInput_frame s t c).2.2.2.2.1
      · rfl
  | timerFire =>
      unfold step
      dsimp only
      split
      · cases s.timer with
        | none => rfl
        | some ti => exact handleAutoSaveFire_urlId s ti
      · rfl
  | saveClick =>
      unfold step
      dsimp only
      split
      · exact applySaveClick_urlId s
      · rfl
  | resolve o => exact (applyResolve_frame s o).2.1
  | deleteClick cf ok =>
      unfold step
      dsimp only
      split
      · exact applyDelete_urlId s cf ok
      · rfl
  | fetchDone ft fc =>
      unfold step
      dsimp only
      split
      · exact (applyFetchDone_frame s ft fc).2.1
      · rfl

theorem run_urlId (s : EditorState) (evs : List Event) :
    (run s evs).urlId = s.urlId := by
  induction evs generalizing s with
  | nil => rfl
  | cons e rest ih => exact (ih (step s e)).trans (step_urlId s e)

/-- C5: a debounced save attempt whose captured content trims to empty
does nothing beyond consuming the timer (no status change, no error, no
persistence call, no navigation), and the manual save handler invoked
with trimmed-empty draft content only surfaces the validation error
"Note content is required" — before the timer-cancellation step and
before any persistence call, status change or navigation. -/
theorem c5_empty_content_guard (s : EditorState) :
    (∀ ti, s.timer = some ti → jsTrim ti.content = "" → s.sessionOpen = true →
        step s .timerFire = { s with timer := none }) ∧
    (jsTrim s.content = "" →
        handleSave s = { s with error := some "Note content is required" }) := by
  constructor
  · intro ti hti hc ho
    unfold step
    dsimp only
    rw [if_pos ho, hti]
    unfold handleAutoSaveFire
    dsimp only
    rw [if_pos hc]
  · intro hc
    unfold handleSave
    rw [if_pos hc]

/-- Witness state for the empty-content guard: whitespace-only content
with an armed timer capturing it. -/
def blankDraftState : EditorState :=
  { init none with
      title := "t"
      content := " "
      timer := some ⟨"t", " ", 3000⟩ }

/-- C5 witness: a concrete state with whitespace-only content: the armed
timer fires to a no-op and the manual handler reports the validation
error only. -/
theorem c5_empty_content_guard_witness :
    step blankDraftState .timerFire = { blankDraftState with timer := none } ∧
    handleSave blankDraftState =
      { blankDraftState with error := some "Note content is required" } :=
  ⟨(c5_empty_content_guard blankDraftState).1 ⟨"t", " ", 3000⟩ rfl (by decide) rfl,
   (c5_empty_content_guard blankDraftState).2 (by decide)⟩

/-- C6: when the in-flight request is a manual save, success is followed
by the navigate-to-dashboard action, while failure surfaces the error
message, performs no navigation and leaves the session open. -/
theorem c6_manual_save_navigation (s : EditorState) (fl : Inflight)
    (hfl : s.inflight = some fl) (hk : fl.kind = .manual) :
    (∀ newId, (step s (.resolve (.ok newId))).navigatedTo = some "/dashboard" ∧
        (step s (.resolve (.ok newId))).sessionOpen = false) ∧
    (∀ msg, (step s (.resolve (.error msg))).error = some msg ∧
        (step s (.resolve (.error msg))).navigatedTo = s.navigatedTo ∧
        (step s (.resolve (.error msg))).sessionOpen = s.sessionOpen) := by
  obtain ⟨k, call⟩ := fl
  cases k with
  | auto => exact nomatch hk
  | manual =>
      constructor
      · intro newId
        unfold step applyResolve
        dsimp only
        rw [hfl]
        exact ⟨rfl, rfl⟩
      · intro msg
        unfold step applyResolve
        dsimp only
        rw [hfl]
        exact ⟨rfl, rfl, rfl⟩

/-- C6 witness: in a fresh session, typing "hey" and clicking Save puts a
manual create in flight; resolving it successfully navigates to the
dashboard, and resolving it with an error surfaces the message and keeps
the session open. -/
theorem c6_manual_save_navigation_witness :
    ((step (run (init none) [.input "" "hey", .saveClick])
        (.resolve (.ok "n9"))).navigatedTo = some "/dashboard" ∧
      (step (run (init none) [.input "" "hey", .saveClick])
        (.resolve (.ok "n9"))).sessionOpen = false) ∧
    ((step (run (init none) [.input "" "hey", .saveClick])
        (.resolve (.error "down"))).error = some "down" ∧
      (step (run (init none) [.input "" "hey", .saveClick])
        (.resolve (.error "down"))).navigatedTo =
        (run (init none) [.input "" "hey", .saveClick]).navigatedTo ∧
      (step (run (init none) [.input "" "hey", .saveClick])
        (.resolve (.error "down"))).sessionOpen =
        (run (init none) [.input "" "hey", .saveClick]).sessionOpen) :=
  ⟨(c6_manual_save_navigation _ ⟨.manual, .create none "hey"⟩
      (by decide) rfl).1 "n9",
   (c6_manual_save_navigation _ ⟨.manual, .create none "hey"⟩
      (by decide) rfl).2 "down"⟩

/-- C7: whatever the outcome of the in-flight persistence request, its
settlement clears the save-in-progress guard and the in-flight slot (the
finally-equivalent block), so no save can leave the coordinator
permanently locked. -/
theorem c7_guard_release (s : EditorState) (hfl : s.inflight.isSome)
    (o : Except String String) :
    (step s (.resolve o)).saving = false ∧
    (step s (.resolve o)).inflight = none := by
  show ((applyResolve s o).saving = false) ∧ ((applyResolve s o).inflight = none)
  unfold applyResolve
  cases hi : s.inflight with
  | none => rw [hi] at hfl; cases hfl
  | some fl =>
      obtain ⟨k, call⟩ := fl
      cases k <;> cases o <;> dsimp only
      case auto.ok newId => cases call <;> exact ⟨rfl, rfl⟩
      all_goals exact ⟨rfl, rfl⟩

/-- C7 witness: after a debounced create goes in flight, both a
successful and a failed settlement release the guard. -/
theorem c7_guard_release_witness :
    (step (run (init none) [.input "" "a", .timerFire])
      (.resolve (.error "x"))).saving = false ∧
    (step (run (init none) [.input "" "a", .timerFire])
      (.resolve (.error "x"))).inflight = none :=
  c7_guard_release _ (by decide) (.error "x")

/-- C9: the delete action never reaches the Notes Service unless the
confirmation dialog returned true within that same action; on a declined
confirmation the state is entirely unchanged (no `deleteNote` call, the
session stays open). -/
theorem c9_delete_confirmation (s : EditorState) :
    (∀ ok, step s (.deleteClick false ok) = s) ∧
    (∀ cf ok, (step s (.deleteClick cf ok)).calls ≠ s.calls → cf = true) := by
  have h1 : ∀ ok, step s (.deleteClick false ok) = s := by
    intro ok
    unfold step
    dsimp only
    by_cases ho : s.sessionOpen = true
    · rw [if_pos ho]
      unfold applyDelete
      cases s.urlId <;> rfl
    · rw [if_neg ho]
  refine ⟨h1, ?_⟩
  intro cf ok hne
  cases cf with
  | false => exact absurd (by rw [h1 ok]) hne
  | true => rfl

/-- C9 witness: with a session opened on note "n7", a declined
confirmation leaves the state unchanged, while a confirmed delete does
reach the service (so the hypothesis of the second conjunct is real). -/
theorem c9_delete_confirmation_witness :
    step (init (some "n7")) (.deleteClick false true) = init (some "n7") ∧
    (true : Bool) = true :=
  ⟨(c9_delete_confirmation (init (some "n7"))).1 true,
   (c9_delete_confirmation (init (some "n7"))).2 true true (by decide)⟩

/-- C1 counterexample: a manual save of a fresh note that fails does not
end with status unsaved — the manual handler's finally block sets status
saved even on failure, so after the failed create the status reads saved. -/
theorem c1_counterexample :
    (run (init none) [.input "" "hi", .saveClick]).inflight =
      some ⟨.manual, .create none "hi"⟩ ∧
    (run (init none) [.input "" "hi", .saveClick, .resolve (.error "boom")]).saveResults =
      [(.create none "hi", false)] ∧
    (run (init none) [.input "" "hi", .saveClick, .resolve (.error "boom")]).autoSaveStatus =
      SaveStatus.saved ∧
    (run (init none) [.input "" "hi", .saveClick, .resolve (.error "boom")]).autoSaveStatus ≠
      SaveStatus.unsaved :=
  ⟨by decide, by decide, by decide, by decide⟩

/-- C1 (amended): between trigger and settlement of a persistence attempt
the status is exactly saving; a successful attempt (debounced or manual)
ends with status saved and a failed debounced attempt ends with status
unsaved, but a failed manual save also ends with status saved — the
manual handler's finally block sets saved unconditionally. -/
theorem c1_save_status (u : Option String) (evs : List Event) (s : EditorState)
    (hreach : run (init u) evs = s) (fl : Inflight) (hfl : s.inflight = some fl) :
    s.autoSaveStatus = SaveStatus.saving ∧
    (∀ newId, (step s (.resolve (.ok newId))).autoSaveStatus = SaveStatus.saved) ∧
    (fl.kind = SaveKind.auto →
      ∀ msg, (step s (.resolve (.error msg))).autoSaveStatus = SaveStatus.unsaved) ∧
    (fl.kind = SaveKind.manual →
      ∀ msg, (step s (.resolve (.error msg))).autoSaveStatus = SaveStatus.saved) := by
  have hinv : Inv s := hreach ▸ inv_reach u evs
  obtain ⟨k, call⟩ := fl
  refine ⟨hinv.flight_status (by rw [hfl]; rfl), ?_, ?_, ?_⟩
  · intro newId
    unfold step applyResolve
    dsimp only
    rw [hfl]
    cases k with
    | auto => cases call <;> rfl
    | manual => rfl
  · intro hk msg
    unfold step applyResolve
    dsimp only
    rw [hfl]
    cases k with
    | auto => rfl
    | manual => exact nomatch hk
  · intro hk msg
    unfold step applyResolve
    dsimp only
    rw [hfl]
    cases k with
    | auto => exact nomatch hk
    | manual => rfl

/-- C1 witness for the amended statement: a debounced create in flight
shows status saving, and its failure ends with status unsaved. -/
theorem c1_save_status_witness :
    (run (init none) [.input "" "au", .timerFire]).autoSaveStatus =
      SaveStatus.saving ∧
    (step (run (init none) [.input "" "au", .timerFire])
      (.resolve (.error "oops"))).autoSaveStatus = SaveStatus.unsaved :=
  ⟨(c1_save_status none [.input "" "au", .timerFire] _ rfl
      ⟨.auto, .create none "au"⟩ (by decide)).1,
   (c1_save_status none [.input "" "au", .timerFire] _ rfl
      ⟨.auto, .create none "au"⟩ (by decide)).2.2.1 rfl "oops"⟩

/-- C3: in every reachable state an in-flight request implies the saving
guard is set, and while the guard is set a firing debounce timer
initiates no persistence call and queues nothing (the call log and the
in-flight slot are unchanged), and a Save-button click is a complete
no-op (the button is disabled), so create/edit calls never overlap. -/
theorem c3_mutual_exclusion (u : Option String) (evs : List Event)
    (s : EditorState) (hreach : run (init u) evs = s) :
    (s.inflight.isSome → s.saving = true) ∧
    (s.saving = true →
      (step s .timerFire).calls = s.calls ∧
      (step s .timerFire).inflight = s.inflight ∧
      step s .saveClick = s) := by
  have hinv : Inv s := hreach ▸ inv_reach u evs
  refine ⟨hinv.flight_saving, ?_⟩
  intro hs
  have hfire : (step s .timerFire).calls = s.calls ∧
      (step s .timerFire).inflight = s.inflight := by
    unfold step
    dsimp only
    by_cases ho : s.sessionOpen = true
    · rw [if_pos ho]
      cases ht : s.timer with
      | none => exact ⟨rfl, rfl⟩
      | some ti =>
          unfold handleAutoSaveFire
          dsimp only
          by_cases hcc : jsTrim ti.content = ""
          · rw [if_pos hcc]
            exact ⟨rfl, rfl⟩
          · rw [if_neg hcc, if_pos (Or.inl hs)]
            exact ⟨rfl, rfl⟩
    · rw [if_neg ho]
      exact ⟨rfl, rfl⟩
  have hclick : step s .saveClick = s := by
    unfold step
    dsimp only
    by_cases ho : s.sessionOpen = true
    · rw [if_pos ho]
      unfold applySaveClick
      rw [if_pos (by simp [saveButtonDisabled, hs])]
    · rw [if_neg ho]
  exact ⟨hfire.1, hfire.2, hclick⟩

/-- C3 witness: with a manual create in flight the guard is set and a
second Save click changes nothing. -/
theorem c3_mutual_exclusion_witness :
    (run (init none) [.input "" "mx", .saveClick]).saving = true ∧
    step (run (init none) [.input "" "mx", .saveClick]) .saveClick =
      run (init none) [.input "" "mx", .saveClick] :=
  ⟨(c3_mutual_exclusion none [.input "" "mx", .saveClick] _ rfl).1 (by decide),
   ((c3_mutual_exclusion none [.input "" "mx", .saveClick] _ rfl).2
      (by decide)).2.2⟩

/-- C8: in any reachable state whose draft is fully empty no debounce
timer is armed and no single event produces a persistence (create/edit)
call from that state; and for any live state, the debounce effect run
for a mutation to the fully empty draft arms no timer, leaves the status
unchanged (saved stays saved) and makes no call. -/
theorem c8_empty_draft_frame (u : Option String) (evs : List Event)
    (s : EditorState) (hreach : run (init u) evs = s)
    (ht : s.title = "") (hc : s.content = "") :
    s.timer = none ∧
    (∀ e : Event, (step s e).calls.filter isSaveCall = s.calls.filter isSaveCall) ∧
    (∀ s0 : EditorState, s0.sessionOpen = true →
        (step s0 (.input "" "")).timer = none ∧
        (step s0 (.input "" "")).autoSaveStatus = s0.autoSaveStatus ∧
        (step s0 (.input "" "")).calls = s0.calls) := by
  have hinv : Inv s := hreach ▸ inv_reach u evs
  have htimer : s.timer = none := by
    cases htm : s.timer with
    | none => rfl
    | some ti =>
        obtain ⟨e1, e2, _⟩ := hinv.timer_snapshot ti htm
        exact absurd ⟨e1.trans ht, e2.trans hc⟩ (hinv.timer_nonempty ti htm)
  refine ⟨htimer, ?_, ?_⟩
  · intro e
    cases e with
    | input t c =>
        unfold step
        dsimp only
        by_cases ho : s.sessionOpen = true
        · rw [if_pos ho, (applyInput_frame s t c).2.2.1]
        · rw [if_neg ho]
    | timerFire =>
        unfold step
        dsimp only
        by_cases ho : s.sessionOpen = true
        · rw [if_pos ho, htimer]
        · rw [if_neg ho]
    | saveClick =>
        unfold step
        dsimp only
        by_cases ho : s.sessionOpen = true
        · rw [if_pos ho]
          unfold applySaveClick
          rw [if_pos (by
            unfold saveButtonDisabled
            rw [hc, show (jsTrim "" == "") = true from by decide]
            simp)]
        · rw [if_neg ho]
    | resolve o =>
        exact congrArg (List.filter isSaveCall) (applyResolve_frame s o).1
    | deleteClick cf ok =>
        unfold step
        dsimp only
        by_cases ho : s.sessionOpen = true
        · rw [if_pos ho]
          unfold applyDelete
          cases hu : s.urlId with
          | none => rfl
          | some nid =>
              cases cf with
              | false => rfl
              | true =>
                  cases ok <;>
                  · simp [List.filter_append, isSaveCall]
        · rw [if_neg ho]
    | fetchDone ft fc =>
        unfold step
        dsimp only
        by_cases ho : s.sessionOpen = true
        · rw [if_pos ho, (applyFetchDone_frame s ft fc).1]
        · rw [if_neg ho]
  · intro s0 ho
    unfold step
    dsimp only
    rw [if_pos ho]
    unfold applyInput debounceEffect
    dsimp only
    rw [if_pos ⟨rfl, rfl⟩]
    exact ⟨rfl, rfl, rfl⟩

/-- C8 witness: the fresh empty session has no timer, a Save click
produces no persistence call, and the empty-draft mutation leaves the
status of an opened-note session unchanged. -/
theorem c8_empty_draft_frame_witness :
    (run (init none) []).timer = none ∧
    (step (run (init none) []) .saveClick).calls.filter isSaveCall =
      (run (init none) []).calls.filter isSaveCall ∧
    (step (init (some "z")) (.input "" "")).autoSaveStatus =
      (init (some "z")).autoSaveStatus :=
  ⟨(c8_empty_draft_frame none [] _ rfl rfl rfl).1,
   (c8_empty_draft_frame none [] _ rfl rfl rfl).2.1 .saveClick,
   ((c8_empty_draft_frame none [] _ rfl rfl rfl).2.2 (init (some "z")) rfl).2.1⟩

/-- C10: every deleteNote call recorded in a reachable session targets
the route parameter the session was opened with; in a session opened
without a route id no deleteNote call ever occurs and the delete action
is a complete no-op even when a successful create has recorded an
identity; and the footer delete control is only rendered when the
session was opened on an existing note. -/
theorem c10_delete_target (u : Option String) (evs : List Event)
    (s : EditorState) (hreach : run (init u) evs = s) :
    (∀ i, ApiCall.delete i ∈ s.calls → s.urlId = some i) ∧
    (s.urlId = none → ∀ i, ApiCall.delete i ∉ s.calls) ∧
    (s.urlId = none → ∀ cf ok, step s (.deleteClick cf ok) = s) ∧
    (s.noteLoaded = true → s.urlId.isSome) ∧
    (deleteControlRendered s = true → s.urlId.isSome) := by
  have hinv : Inv s := hreach ▸ inv_reach u evs
  refine ⟨hinv.deletes_url, ?_, ?_, hinv.loaded_url, ?_⟩
  · intro hn i hmem
    rw [hinv.deletes_url i hmem] at hn
    cases hn
  · intro hn cf ok
    unfold step
    dsimp only
    by_cases ho : s.sessionOpen = true
    · rw [if_pos ho]
      unfold applyDelete
      rw [hn]
    · rw [if_neg ho]
  · intro hr
    unfold deleteControlRendered isEditing at hr
    exact ((Bool.and_eq_true _ _).mp hr).2

/-- C10 witness: a session opened on note "abc" performing a confirmed
delete recorded exactly that id as the delete target. -/
theorem c10_delete_target_witness :
    (run (init (some "abc")) [.deleteClick true false]).urlId = some "abc" :=
  (c10_delete_target (some "abc") [.deleteClick true false] _ rfl).1 "abc"
    (by decide)

/-- A list of draft mutations as events. -/
def inputs (ms : List (String × String)) : List Event :=
  ms.map (fun p => Event.input p.1 p.2)

theorem run_cons (s : EditorState) (e : Event) (l : List Event) :
    run s (e :: l) = run (step s e) l := rfl

theorem run_inputs_frame (ms : List (String × String)) :
    ∀ s : EditorState,
      (run s (inputs ms)).saving = s.saving ∧
      (run s (inputs ms)).sessionOpen = s.sessionOpen ∧
      (run s (inputs ms)).calls = s.calls ∧
      (run s (inputs ms)).createdNoteId = s.createdNoteId ∧
      (run s (inputs ms)).urlId = s.urlId := by
  induction ms with
  | nil => exact fun s => ⟨rfl, rfl, rfl, rfl, rfl⟩
  | cons p rest ih =>
      intro s
      have hstep : (step s (.input p.1 p.2)).saving = s.saving ∧
          (step s (.input p.1 p.2)).sessionOpen = s.sessionOpen ∧
          (step s (.input p.1 p.2)).calls = s.calls ∧
          (step s (.input p.1 p.2)).createdNoteId = s.createdNoteId ∧
          (step s (.input p.1 p.2)).urlId = s.urlId := by
        unfold step
        dsimp only
        by_cases ho : s.sessionOpen = true
        · rw [if_pos ho]
          obtain ⟨a1, a2, a3, a4, a5, _⟩ := applyInput_frame s p.1 p.2
          exact ⟨a1, a2, a3, a4, a5⟩
        · rw [if_neg ho]
          exact ⟨rfl, rfl, rfl, rfl, rfl⟩
      have hcons : inputs (p :: rest) = Event.input p.1 p.2 :: inputs rest := rfl
      rw [hcons, run_cons]
      obtain ⟨b1, b2, b3, b4, b5⟩ := ih (step s (.input p.1 p.2))
      exact ⟨b1.trans hstep.1, b2.trans hstep.2.1, b3.trans hstep.2.2.1,
        b4.trans hstep.2.2.2.1, b5.trans hstep.2.2.2.2⟩

theorem fire_after_input (s0 : EditorState) (t c : String)
    (hsv : s0.saving = false) (ho : s0.sessionOpen = true)
    (hne : ¬(t = "" ∧ c = "")) (hct : ¬ jsTrim c = "") :
    (step s0 (.input t c)).timer = some ⟨t, c, autoSaveDelayMs⟩ ∧
    (step s0 (.input t c)).calls = s0.calls ∧
    (step (step s0 (.input t c)) .timerFire).calls =
      s0.calls ++ [mkSaveCall (targetId s0) t c] ∧
    (step (step s0 (.input t c)) .timerFire).inflight =
      some ⟨.auto, mkSaveCall (targetId s0) t c⟩ ∧
    (step (step s0 (.input t c)) .timerFire).timer = none := by
  have hstep : step s0 (.input t c) = applyInput s0 t c := by
    unfold step
    dsimp only
    rw [if_pos ho]
  have happ : applyInput s0 t c =
      { s0 with
          title := t
          content := c
          autoSaveStatus := .unsaved
          timer := some ⟨t, c, autoSaveDelayMs⟩ } := by
    unfold applyInput debounceEffect
    dsimp only
    rw [if_neg hne, if_neg (by rw [hsv]; simp)]
  rw [hstep, happ]
  refine ⟨rfl, rfl, ?_, ?_, ?_⟩
  all_goals
    unfold step
    dsimp only
    rw [if_pos ho]
    try dsimp only
    unfold handleAutoSaveFire
    try dsimp only
    rw [if_neg hct, if_neg (by rw [hsv]; simp)]
  all_goals rfl

/-- C4: from a quiescent live state, a sequence of draft mutations ending
in a non-empty draft leaves exactly the timer from the last mutation
armed with the fixed 3000 ms delay (every earlier timer was cancelled
when its mutation was superseded), makes no persistence call by itself,
and when that surviving timer fires exactly one persistence call is
initiated whose payload is built from the draft of the last mutation,
not from any intermediate draft. -/
theorem c4_debounce_coalescing (s : EditorState) (ms : List (String × String))
    (t2 c2 : String) (hsv : s.saving = false) (hopen : s.sessionOpen = true)
    (hne : ¬(t2 = "" ∧ c2 = "")) (hct : ¬ jsTrim c2 = "") :
    (run s (inputs (ms ++ [(t2, c2)]))).timer =
      some ⟨t2, c2, autoSaveDelayMs⟩ ∧
    autoSaveDelayMs = 3000 ∧
    (run s (inputs (ms ++ [(t2, c2)]))).calls = s.calls ∧
    (step (run s (inputs (ms ++ [(t2, c2)]))) .timerFire).calls =
      s.calls ++ [mkSaveCall (targetId s) t2 c2] ∧
    (step (run s (inputs (ms ++ [(t2, c2)]))) .timerFire).inflight =
      some ⟨.auto, mkSaveCall (targetId s) t2 c2⟩ ∧
    (step (run s (inputs (ms ++ [(t2, c2)]))) .timerFire).timer = none := by
  obtain ⟨f1, f2, f3, f4, f5⟩ := run_inputs_frame ms s
  have hsplit : inputs (ms ++ [(t2, c2)]) = inputs ms ++ [Event.input t2 c2] := by
    simp [inputs]
  have hrun : run s (inputs (ms ++ [(t2, c2)])) =
      step (run s (inputs ms)) (.input t2 c2) := by
    rw [hsplit, run_append]
    rfl
  obtain ⟨g1, g2, g3, g4, g5⟩ :=
    fire_after_input (run s (inputs ms)) t2 c2 (f1.trans hsv) (f2.trans hopen)
      hne hct
  have htgt : targetId (run s (inputs ms)) = targetId s := by
    unfold targetId
    rw [f4, f5]
  rw [hrun]
  exact ⟨g1, rfl, g2.trans f3, by rw [g3, f3, htgt], by rw [g4, htgt], g5⟩

/-- C4 witness: three successive drafts of the same note coalesce into a
single armed timer capturing the last draft, and its firing initiates
exactly one create call with that payload. -/
theorem c4_debounce_coalescing_witness :
    (run (init none) (inputs [("", "h"), ("", "he"), ("", "hello")])).timer =
      some ⟨"", "hello", autoSaveDelayMs⟩ ∧
    (step (run (init none) (inputs [("", "h"), ("", "he"), ("", "hello")]))
      .timerFire).calls =
      (init none).calls ++ [mkSaveCall (targetId (init none)) "" "hello"] :=
  ⟨(c4_debounce_coalescing (init none) [("", "h"), ("", "he")] "" "hello" rfl rfl
      (by decide) (by decide)).1,
   (c4_debounce_coalescing (init none) [("", "h"), ("", "he")] "" "hello" rfl rfl
      (by decide) (by decide)).2.2.2.1⟩

/-- C2: in a session opened with no route id, while no created identity is
recorded every persistence call in the log is a create; once an identity
is recorded every edit call in the log targets it and every save call a
further event initiates is an edit targeting it; at most one createNote
call ever succeeds; and when every settled attempt succeeded and nothing
is in flight, S (at least 1) successful saves consist of exactly one
createNote call and S minus 1 editNote calls. -/
theorem c2_single_create (evs : List Event) (s : EditorState)
    (hreach : run (init none) evs = s) :
    (s.createdNoteId = none →
      ∀ c ∈ s.calls, isSaveCall c = true → isCreate c = true) ∧
    (∀ nid, s.createdNoteId = some nid →
      ∀ c ∈ s.calls, isEditCall c = true → isEditOf nid c = true) ∧
    numSuccCreates s.saveResults ≤ 1 ∧
    ((∀ r ∈ s.saveResults, r.2 = true) → s.inflight = none →
      1 ≤ s.saveResults.length →
      numCreates s.calls = 1 ∧ numEdits s.calls = s.saveResults.length - 1) ∧
    (∀ nid, s.createdNoteId = some nid → ∀ e : Event,
      ∃ L, (step s e).calls = s.calls ++ L ∧
        ∀ c ∈ L, isSaveCall c = true → isEditOf nid c = true) := by
  have hinv : Inv s := hreach ▸ inv_reach none evs
  have hurl : s.urlId = none := by
    rw [← hreach]
    exact run_urlId (init none) evs
  refine ⟨fun hcn => hinv.saves_create hurl hcn, ?_, ?_, ?_, ?_⟩
  · intro nid hcn c hc hce
    obtain ⟨nid2, hnid2, hof⟩ := hinv.edits_target hurl c hc hce
    rw [hcn] at hnid2
    injection hnid2 with hnn
    rw [hnn]
    exact hof
  · cases hcn : s.createdNoteId with
    | some nid => exact le_of_eq (hinv.succ_some hurl nid hcn)
    | none =>
        cases hop : s.sessionOpen with
        | true =>
            have h0 := hinv.succ_none hurl hcn hop
            have hle := numSuccCreates_le_numSucc s.saveResults
            omega
        | false => exact hinv.succ_closed hurl hcn hop
  · intro hall hifl hlen
    have hcrt := hinv.crt_corr
    have hedt := hinv.edt_corr
    rw [hifl] at hcrt hedt
    simp only [inflCreates, inflEdits] at hcrt hedt
    have hrc := allSucc_resCreates s.saveResults hall
    have hre := allSucc_resEdits s.saveResults hall
    have hlen2 := allSucc_length s.saveResults hall
    have hsplit := numSucc_split s.saveResults hinv.results_save
    have hone : numSuccCreates s.saveResults = 1 := by
      cases hq : s.createdNoteId with
      | some nid => exact hinv.succ_some hurl nid hq
      | none =>
          cases hop : s.sessionOpen with
          | true =>
              have h0 := hinv.succ_none hurl hq hop
              omega
          | false =>
              have hle := hinv.succ_closed hurl hq hop
              have hz := hinv.succ_edit_none hurl hq
              omega
    constructor
    · omega
    · omega
  · intro nid hcn e
    have hnil : ∀ hcalls : (step s e).calls = s.calls,
        ∃ L, (step s e).calls = s.calls ++ L ∧
          ∀ c ∈ L, isSaveCall c = true → isEditOf nid c = true := by
      intro hcalls
      refine ⟨[], by rw [hcalls, List.append_nil], ?_⟩
      intro c hc
      simp at hc
    cases e with
    | input t c =>
        apply hnil
        unfold step
        dsimp only
        by_cases ho : s.sessionOpen = true
        · rw [if_pos ho]
          exact (applyInput_frame s t c).2.2.1
        · rw [if_neg ho]
    | resolve o =>
        apply hnil
        exact (applyResolve_frame s o).1
    | fetchDone ft fc =>
        apply hnil
        unfold step
        dsimp only
        by_cases ho : s.sessionOpen = true
        · rw [if_pos ho]
          exact (applyFetchDone_frame s ft fc).1
        · rw [if_neg ho]
    | timerFire =>
        unfold step
        dsimp only
        by_cases ho : s.sessionOpen = true
        · rw [if_pos ho]
          cases htm : s.timer with
          | none =>
              refine ⟨[], by rw [List.append_nil], ?_⟩
              intro c hc
              simp at hc
          | some ti =>
              unfold handleAutoSaveFire
              dsimp only
              by_cases hcc : jsTrim ti.content = ""
              · rw [if_pos hcc]
                refine ⟨[], by rw [List.append_nil], ?_⟩
                intro c hc
                simp at hc
              · rw [if_neg hcc]
                by_cases hg : s.saving = true ∨ s.autoSaveStatus = SaveStatus.saving
                · rw [if_pos hg]
                  refine ⟨[], by rw [List.append_nil], ?_⟩
                  intro c hc
                  simp at hc
                · rw [if_neg hg]
                  refine ⟨[mkSaveCall (targetId s) ti.title ti.content], rfl, ?_⟩
                  intro c hc _
                  rw [List.mem_singleton.mp hc, targetId_of_some s nid hcn,
                    mkSaveCall_edit]
                  exact isEditOf_edit nid _ _
        · rw [if_neg ho]
          refine ⟨[], by rw [List.append_nil], ?_⟩
          intro c hc
          simp at hc
    | saveClick =>
        unfold step
        dsimp only
        by_cases ho : s.sessionOpen = true
        · rw [if_pos ho]
          unfold applySaveClick
          by_cases hd : saveButtonDisabled s = true
          · rw [if_pos hd]
            refine ⟨[], by rw [List.append_nil], ?_⟩
            intro c hc
            simp at hc
          · rw [if_neg hd]
            unfold handleSave
            by_cases hce : jsTrim s.content = ""
            · rw [if_pos hce]
              refine ⟨[], by rw [List.append_nil], ?_⟩
              intro c hc
              simp at hc
            · rw [if_neg hce]
              dsimp only
              refine ⟨[mkSaveCall (targetId s) s.title s.content], rfl, ?_⟩
              intro c hc _
              rw [List.mem_singleton.mp hc, targetId_of_some s nid hcn,
                mkSaveCall_edit]
              exact isEditOf_edit nid _ _
        · rw [if_neg ho]
          refine ⟨[], by rw [List.append_nil], ?_⟩
          intro c hc
          simp at hc
    | deleteClick cf ok =>
        unfold step
        dsimp only
        by_cases ho : s.sessionOpen = true
        · rw [if_pos ho]
          unfold applyDelete
          cases hu : s.urlId with
          | none =>
              refine ⟨[], by rw [List.append_nil], ?_⟩
              intro c hc
              simp at hc
          | some nid2 =>
              cases cf with
              | false =>
                  refine ⟨[], by rw [List.append_nil]; rfl, ?_⟩
                  intro c hc
                  simp at hc
              | true =>
                  cases ok with
                  | true =>
                      refine ⟨[.delete nid2], rfl, ?_⟩
                      intro c hc hsv2
                      rw [List.mem_singleton.mp hc] at hsv2
                      exact absurd hsv2 (by simp [isSaveCall])
                  | false =>
                      refine ⟨[.delete nid2], rfl, ?_⟩
                      intro c hc hsv2
                      rw [List.mem_singleton.mp hc] at hsv2
                      exact absurd hsv2 (by simp [isSaveCall])
        · rw [if_neg ho]
          refine ⟨[], by rw [List.append_nil], ?_⟩
          intro c hc
          simp at hc

/-- C2 witness: a fresh session whose two debounced saves both succeed
issues exactly one create call and one edit call. -/
theorem c2_single_create_witness :
    numCreates (run (init none) [.input "" "a", .timerFire, .resolve (.ok "n1"),
      .input "" "ab", .timerFire, .resolve (.ok "n1")]).calls = 1 ∧
    numEdits (run (init none) [.input "" "a", .timerFire, .resolve (.ok "n1"),
      .input "" "ab", .timerFire, .resolve (.ok "n1")]).calls =
      (run (init none) [.input "" "a", .timerFire, .resolve (.ok "n1"),
        .input "" "ab", .timerFire, .resolve (.ok "n1")]).saveResults.length - 1 :=
  (c2_single_create [.input "" "a", .timerFire, .resolve (.ok "n1"),
      .input "" "ab", .timerFire, .resolve (.ok "n1")] _ rfl).2.2.2.1
    (by decide) (by decide) (by decide)

end NoteSaas









